import Mathlib

/-!
Verification development for the Kiro cleaner / machine-id reset tool
(`kiro.py`).  The claims under study concern three functions of the source:

* `generate_machine_ids` (spec name: `generate_identifier_set`),
* `backup_file`,
* `reset_machine_id` (spec name: `apply_reset`).

The embedding below translates those functions into Lean.  Python library
calls (`uuid.uuid4`, `hashlib.sha256`, `json.load` / `json.dump`,
`datetime.strftime`, `shutil.copy2`, the filesystem) are modelled by
executable Lean counterparts at the level of detail the source exercises;
each model carries a doc comment naming what it stands for and which
fragment it covers.  Randomness (`uuid.uuid4()`) and the two fallible I/O
steps that the source wraps in `try/except` (the backup copy and the final
write) are passed in as explicit parameters.
-/

/- ### Hexadecimal rendering (models Python's `'%x'` formatting) -/

/-- The lowercase hexadecimal digit character for `n % 16`
(`0`–`9`, `a`–`f`), as produced by Python's `'%x'` formatting. -/
def hexDigitChar (n : Nat) : Char :=
  if n < 10 then Char.ofNat (48 + n) else Char.ofNat (87 + n)

/-- `hexDigits w n` is the `w`-character zero-padded lowercase hexadecimal
rendering of `n`'s low `4*w` bits, most significant digit first — the model
of Python's `'%0{w}x' % n` for values below `16^w`. -/
def hexDigits : Nat → Nat → List Char
  | 0, _ => []
  | w + 1, n => hexDigitChar ((n >>> (4 * w)) % 16) :: hexDigits w n

/-- `c` is a lowercase hexadecimal digit (`0`–`9` or `a`–`f`). -/
def isLowerHexChar (c : Char) : Bool :=
  (48 ≤ c.toNat && c.toNat ≤ 57) || (97 ≤ c.toNat && c.toNat ≤ 102)

/-- `c` is an uppercase hexadecimal digit (`0`–`9` or `A`–`F`). -/
def isUpperHexChar (c : Char) : Bool :=
  (48 ≤ c.toNat && c.toNat ≤ 57) || (65 ≤ c.toNat && c.toNat ≤ 70)

/- ### Python string primitives used by the source -/

/-- Model of Python's `str.upper()` restricted to what the source feeds it
(ASCII hexadecimal/dash text): uppercase every character. -/
def pyUpper (s : String) : String :=
  String.mk (s.data.map Char.toUpper)

/-- Model of Python's `str.encode()` (UTF-8) on the ASCII strings the
source hashes: the list of character codes, one byte per character. -/
def strBytes (s : String) : List Nat :=
  s.data.map Char.toNat

/- ### SHA-256 (model of `hashlib.sha256(...).hexdigest()`) -/

/-- 2^32, the modulus for 32-bit words. -/
def w32 : Nat := 4294967296

/-- Right rotation of a 32-bit word by `n` places. -/
def rotr32 (n x : Nat) : Nat :=
  ((x >>> n) ||| (x <<< (32 - n))) % w32

/-- SHA-256 big sigma-0. -/
def bsig0 (x : Nat) : Nat := rotr32 2 x ^^^ rotr32 13 x ^^^ rotr32 22 x

/-- SHA-256 big sigma-1. -/
def bsig1 (x : Nat) : Nat := rotr32 6 x ^^^ rotr32 11 x ^^^ rotr32 25 x

/-- SHA-256 small sigma-0. -/
def ssig0 (x : Nat) : Nat := rotr32 7 x ^^^ rotr32 18 x ^^^ (x >>> 3)

/-- SHA-256 small sigma-1. -/
def ssig1 (x : Nat) : Nat := rotr32 17 x ^^^ rotr32 19 x ^^^ (x >>> 10)

/-- SHA-256 choice function (`(x AND y) XOR (NOT x AND z)` on 32-bit words). -/
def chWord (x y z : Nat) : Nat := (x &&& y) ^^^ ((x ^^^ 4294967295) &&& z)

/-- SHA-256 majority function. -/
def majWord (x y z : Nat) : Nat := (x &&& y) ^^^ (x &&& z) ^^^ (y &&& z)

/-- The 64 SHA-256 round constants. -/
def shaK : List Nat :=
  [1116352408, 1899447441, 3049323471, 3921009573, 961987163,
   1508970993, 2453635748, 2870763221, 3624381080, 310598401,
   607225278, 1426881987, 1925078388, 2162078206, 2614888103,
   3248222580, 3835390401, 4022224774, 264347078, 604807628,
   770255983, 1249150122, 1555081692, 1996064986, 2554220882,
   2821834349, 2952996808, 3210313671, 3336571891, 3584528711,
   113926993, 338241895, 666307205, 773529912, 1294757372,
   1396182291, 1695183700, 1986661051, 2177026350, 2456956037,
   2730485921, 2820302411, 3259730800, 3345764771, 3516065817,
   3600352804, 4094571909, 275423344, 430227734, 506948616,
   659060556, 883997877, 958139571, 1322822218, 1537002063,
   1747873779, 1955562222, 2024104815, 2227730452, 2361852424,
   2428436474, 2756734187, 3204031479, 3329325298]

/-- The eight 32-bit words of a SHA-256 hash state. -/
structure Hash8 where
  a : Nat
  b : Nat
  c : Nat
  d : Nat
  e : Nat
  f : Nat
  g : Nat
  h : Nat

/-- The SHA-256 initial hash state. -/
def shaH0 : Hash8 :=
  ⟨1779033703, 3144134277, 1013904242, 2773480762,
   1359893119, 2600822924, 528734635, 1541459225⟩

/-- One SHA-256 compression round, fed the pair `(k_i, w_i)`. -/
def shaRound (st : Hash8) (kw : Nat × Nat) : Hash8 :=
  let t1 := (st.h + bsig1 st.e + chWord st.e st.f st.g + kw.1 + kw.2) % w32
  let t2 := (bsig0 st.a + majWord st.a st.b st.c) % w32
  ⟨(t1 + t2) % w32, st.a, st.b, st.c, (st.d + t1) % w32, st.e, st.f, st.g⟩

/-- Group a byte list into 32-bit words, big endian (four bytes per word);
trailing bytes that do not fill a word are dropped (never hit after padding). -/
def wordsOfBytes : List Nat → List Nat
  | b0 :: b1 :: b2 :: b3 :: rest =>
      (b0 * 16777216 + b1 * 65536 + b2 * 256 + b3) % w32 :: wordsOfBytes rest
  | _ => []

/-- Extend a 16-word message block by `r` further schedule words. -/
def shaExtend (w : List Nat) : Nat → List Nat
  | 0 => w
  | r + 1 =>
      let n := w.length
      let nw := (ssig1 (w.getD (n - 2) 0) + w.getD (n - 7) 0 +
                 ssig0 (w.getD (n - 15) 0) + w.getD (n - 16) 0) % w32
      shaExtend (w ++ [nw]) r

/-- Process one 64-byte chunk of the padded message. -/
def shaChunk (st : Hash8) (chunk : List Nat) : Hash8 :=
  let w := shaExtend (wordsOfBytes chunk) 48
  let r := (shaK.zip w).foldl shaRound st
  ⟨(st.a + r.a) % w32, (st.b + r.b) % w32, (st.c + r.c) % w32,
   (st.d + r.d) % w32, (st.e + r.e) % w32, (st.f + r.f) % w32,
   (st.g + r.g) % w32, (st.h + r.h) % w32⟩

/-- `beBytes w n`: the `w`-byte big-endian rendering of `n`'s low bits. -/
def beBytes : Nat → Nat → List Nat
  | 0, _ => []
  | v + 1, n => (n >>> (8 * v)) % 256 :: beBytes v n

/-- SHA-256 padding: append `0x80`, zero bytes up to 56 mod 64, and the
bit length as an 8-byte big-endian integer. -/
def shaPad (msg : List Nat) : List Nat :=
  msg ++ 128 :: List.replicate ((119 - msg.length % 64) % 64) 0
      ++ beBytes 8 (msg.length * 8)

/-- Split a list into 64-element chunks; `fuel` bounds the recursion and is
always called with at least the list's length. -/
def chunks64 (fuel : Nat) (l : List Nat) : List (List Nat) :=
  match fuel with
  | 0 => []
  | f + 1 => if l.length == 0 then [] else l.take 64 :: chunks64 f (l.drop 64)

/-- The eight 32-bit words of the SHA-256 digest of a byte string. -/
def sha256words (msg : List Nat) : List Nat :=
  let padded := shaPad msg
  let st := (chunks64 padded.length padded).foldl shaChunk shaH0
  [st.a, st.b, st.c, st.d, st.e, st.f, st.g, st.h]

/-- Model of Python's `hashlib.sha256(msg).hexdigest()`: the 64-character
lowercase hexadecimal rendering of the SHA-256 digest. -/
def sha256hex (msg : List Nat) : String :=
  String.mk ((sha256words msg).foldr (fun w acc => hexDigits 8 w ++ acc) [])

/- ### UUIDs (model of Python's `uuid.uuid4()`) -/

/-- A value returned by `uuid.uuid4()`: a 128-bit integer whose version
nibble (bits 76–79) is 4 and whose variant bits (62–63) are `10`, as the
`uuid` library guarantees for version-4 UUIDs. -/
structure Uuid4 where
  val : Nat
  lt : val < 2 ^ 128
  ver : (val >>> 76) % 16 = 4
  var2 : (val >>> 62) % 4 = 2

/-- Model of Python's `str(u)` on a UUID: the 32-character lowercase
hexadecimal form of the 128-bit value, sliced into the canonical
8-4-4-4-12 dashed groups. -/
def uuidStr (val : Nat) : String :=
  let h := hexDigits 32 val
  String.mk (h.take 8 ++ '-' :: ((h.drop 8).take 4 ++ '-' ::
    ((h.drop 12).take 4 ++ '-' :: ((h.drop 16).take 4 ++ '-' :: h.drop 20))))

/-- Model of Python's `u.hex` on a UUID: the 32-character dashless
lowercase hexadecimal form of the 128-bit value. -/
def uuidHexStr (val : Nat) : String :=
  String.mk (hexDigits 32 val)

/- ### `generate_machine_ids` (spec name: `generate_identifier_set`) -/

/-- Embedding of `generate_machine_ids` (kiro.py lines 88–101).  The four
`uuid.uuid4()` draws are passed in as `u1`–`u4` in source order:
`dev_device_id`, `machine_id`, the UUID inside `sqm_id`, and `raw_uuid`
(whose hex form is hashed for `mac_machine_id`).  The result is the
returned dict as an association list in Python insertion order. -/
def generate_machine_ids (u1 u2 u3 u4 : Uuid4) : List (String × String) :=
  let dev_device_id := uuidStr u1.val
  let machine_id := uuidStr u2.val
  let sqm_id := "\x7b" ++ pyUpper (uuidStr u3.val) ++ "\x7d"
  let raw_uuid := strBytes (uuidHexStr u4.val)
  let mac_machine_id := sha256hex raw_uuid
  [("telemetry.devDeviceId", dev_device_id),
   ("telemetry.macMachineId", mac_machine_id),
   ("telemetry.machineId", machine_id),
   ("telemetry.sqmId", sqm_id),
   ("storage.serviceMachineId", dev_device_id)]

/-- Lookup in an association list (Python dict read at a known key). -/
def alistGet {α : Type} : List (String × α) → String → Option α
  | [], _ => none
  | (k, v) :: rest, key => if k = key then some v else alistGet rest key

/- ### JSON values (model of what `json.load` returns) -/

/-- A parsed JSON value as Python's `json` module produces it: objects
(dicts), arrays (lists), strings, integers, booleans and `null`.
Floating-point literals are outside the modelled fragment (the source's
target keys hold strings, and no claim involves floats). -/
inductive JValue where
  | obj : List (String × JValue) → JValue
  | arr : List JValue → JValue
  | str : String → JValue
  | num : Int → JValue
  | bool : Bool → JValue
  | null : JValue

/- ### JSON parsing (model of `json.load`) -/

/-- Skip JSON whitespace (space, tab, newline, carriage return). -/
def skipWs : List Char → List Char
  | c :: cs =>
      if c == ' ' || c == '\n' || c == '\t' || c == '\r' then skipWs cs
      else c :: cs
  | [] => []

/-- Decode a JSON string escape character (after a backslash); `\\u` escapes
are outside the modelled fragment. -/
def escTable : List (Char × Char) :=
  [('"', '"'), ('\\', '\\'), ('/', '/'), ('n', '\n'), ('t', '\t'),
   ('r', '\r'), ('b', Char.ofNat 8), ('f', Char.ofNat 12)]

/-- Decode one escape by lookup in `escTable`. -/
def escDecode (c : Char) : Option Char :=
  (escTable.find? (fun pc => pc.1 == c)).map Prod.snd

/-- Read the body of a JSON string up to its closing quote, returning the
decoded characters and the remaining input. -/
def readStrChars : List Char → Option (List Char × List Char)
  | [] => none
  | '"' :: rest => some ([], rest)
  | '\\' :: e :: rest =>
      match escDecode e with
      | some c => (readStrChars rest).map (fun p => (c :: p.1, p.2))
      | none => none
  | c :: rest => (readStrChars rest).map (fun p => (c :: p.1, p.2))

/-- Split off the leading decimal digits of the input. -/
def takeDigits : List Char → List Char × List Char
  | [] => ([], [])
  | c :: cs =>
      if c.isDigit then
        let p := takeDigits cs
        (c :: p.1, p.2)
      else ([], c :: cs)

/-- The natural number denoted by a list of decimal digit characters. -/
def digitsToNat (ds : List Char) : Nat :=
  ds.foldl (fun a c => 10 * a + (c.toNat - 48)) 0

/-- Python dict assignment `d[k] = v` as used by `json.loads` when building
an object and by the reset loop: replace the value at the first occurrence
of `k`, or append a new binding when `k` is absent. -/
def dictSet (kvs : List (String × JValue)) (k : String) (v : JValue) :
    List (String × JValue) :=
  match kvs with
  | [] => [(k, v)]
  | (k', v') :: rest =>
      if k' = k then (k, v) :: rest else (k', v') :: dictSet rest k v

mutual

/-- Recursive-descent JSON value parser, a model of `json.load` on the
fragment the source exercises (objects, arrays, strings with simple
escapes, integers, `true`/`false`/`null`).  `fuel` strictly decreases on
every recursive call; `json_loads` supplies enough of it. -/
def parseVal : Nat → List Char → Option (JValue × List Char)
  | 0, _ => none
  | fuel + 1, cs =>
      match skipWs cs with
      | '\x7b' :: rest =>
          (match skipWs rest with
           | '\x7d' :: r2 => some (.obj [], r2)
           | r2 => parseMembers fuel r2 [])
      | '[' :: rest =>
          (match skipWs rest with
           | ']' :: r2 => some (.arr [], r2)
           | r2 => parseItems fuel r2 [])
      | '"' :: rest =>
          (readStrChars rest).map (fun p => (.str (String.mk p.1), p.2))
      | '-' :: rest =>
          (match takeDigits rest with
           | ([], _) => none
           | (ds, r2) => some (.num (-(Int.ofNat (digitsToNat ds))), r2))
      | 't' :: 'r' :: 'u' :: 'e' :: rest => some (.bool true, rest)
      | 'f' :: 'a' :: 'l' :: 's' :: 'e' :: rest => some (.bool false, rest)
      | 'n' :: 'u' :: 'l' :: 'l' :: rest => some (.null, rest)
      | c :: rest =>
          if c.isDigit then
            (match takeDigits (c :: rest) with
             | ([], _) => none
             | (ds, r2) => some (.num (Int.ofNat (digitsToNat ds)), r2))
          else none
      | [] => none

/-- Parse the members of a JSON object after its opening brace (first
member onward); duplicate keys behave as in Python: the last value wins. -/
def parseMembers : Nat → List Char → List (String × JValue) →
    Option (JValue × List Char)
  | 0, _, _ => none
  | fuel + 1, cs, acc =>
      match skipWs cs with
      | '"' :: rest =>
          (match readStrChars rest with
           | none => none
           | some (kchars, r2) =>
               match skipWs r2 with
               | ':' :: r3 =>
                   (match parseVal fuel r3 with
                    | none => none
                    | some (v, r4) =>
                        let acc' := dictSet acc (String.mk kchars) v
                        match skipWs r4 with
                        | ',' :: r5 => parseMembers fuel r5 acc'
                        | '\x7d' :: r5 => some (.obj acc', r5)
                        | _ => none)
               | _ => none)
      | _ => none

/-- Parse the items of a JSON array after its opening bracket (first item
onward). -/
def parseItems : Nat → List Char → List JValue → Option (JValue × List Char)
  | 0, _, _ => none
  | fuel + 1, cs, acc =>
      match parseVal fuel cs with
      | none => none
      | some (v, rest) =>
          match skipWs rest with
          | ',' :: r2 => parseItems fuel r2 (acc ++ [v])
          | ']' :: r2 => some (.arr (acc ++ [v]), r2)
          | _ => none

end

/-- Model of `json.load` on a file's text: parse one JSON value and require
only whitespace after it; `none` models a raised `JSONDecodeError`. -/
def json_loads (s : String) : Option JValue :=
  match parseVal (2 * s.data.length + 2) s.data with
  | some (v, rest) => if (skipWs rest).isEmpty then some v else none
  | none => none

/- ### JSON serialization (model of `json.dump(data, f, indent=4, ensure_ascii=False)`) -/

/-- Escape one character for a JSON string literal (quote and backslash;
with `ensure_ascii=False` other characters are emitted literally, control
characters do not occur in the values the source writes). -/
def escapeJsonChar (c : Char) : String :=
  if c == '"' then "\\\"" else if c == '\\' then "\\\\" else String.singleton c

/-- Serialize a string as a JSON string literal. -/
def dumpStr (s : String) : String :=
  "\"" ++ String.join (s.data.map escapeJsonChar) ++ "\""

/-- `4 * lvl` spaces, the indentation prefix at nesting level `lvl` for
`indent=4`. -/
def indentOf (lvl : Nat) : String :=
  String.mk (List.replicate (4 * lvl) ' ')

mutual

/-- Serialize a JSON value at nesting level `lvl`, in the layout
`json.dump(..., indent=4, ensure_ascii=False)` produces. -/
def dumpVal (lvl : Nat) : JValue → String
  | .obj [] => "\x7b\x7d"
  | .obj (kv :: rest) =>
      "\x7b\n" ++ dumpMembers (lvl + 1) kv rest ++ "\n" ++ indentOf lvl ++ "\x7d"
  | .arr [] => "[]"
  | .arr (x :: rest) =>
      "[\n" ++ dumpItems (lvl + 1) x rest ++ "\n" ++ indentOf lvl ++ "]"
  | .str s => dumpStr s
  | .num n => toString n
  | .bool b => if b then "true" else "false"
  | .null => "null"
termination_by v => sizeOf v

/-- Serialize the members of a nonempty object, one per line, separated by
commas. -/
def dumpMembers (lvl : Nat) : String × JValue → List (String × JValue) → String
  | (k, v), [] => indentOf lvl ++ dumpStr k ++ ": " ++ dumpVal lvl v
  | (k, v), kv :: rest =>
      indentOf lvl ++ dumpStr k ++ ": " ++ dumpVal lvl v ++ ",\n" ++
        dumpMembers lvl kv rest
termination_by kv rest => sizeOf kv + sizeOf rest

/-- Serialize the items of a nonempty array, one per line, separated by
commas. -/
def dumpItems (lvl : Nat) : JValue → List JValue → String
  | v, [] => indentOf lvl ++ dumpVal lvl v
  | v, x :: rest => indentOf lvl ++ dumpVal lvl v ++ ",\n" ++ dumpItems lvl x rest
termination_by v rest => sizeOf v + sizeOf rest

end

/-- Model of `json.dump(data, f, indent=4, ensure_ascii=False)`: the text
written to the file. -/
def json_dumps (v : JValue) : String := dumpVal 0 v

/- ### Python operator semantics used by the reset loop -/

/-- An uncaught Python exception.  The only kind the modelled code can
raise outside a `try` block is `TypeError` (from `key in data` or
`data[key] = v` on a non-dict value). -/
inductive PyExn where
  | typeError : PyExn

/-- Does the character list `needle` occur contiguously inside `hay`?
(Python's `in` on strings.) -/
def strContainsSub (hay needle : List Char) : Bool :=
  (List.range (hay.length + 1)).any (fun i => needle.isPrefixOf (hay.drop i))

/-- Python's membership test `key in data` on a parsed JSON value:
key lookup on dicts, element equality on lists, substring test on strings,
and a `TypeError` on numbers, booleans and `None` (they are not iterable). -/
def pyContains (key : String) : JValue → Except PyExn Bool
  | .obj kvs => .ok (kvs.any (fun kv => kv.1 == key))
  | .arr xs =>
      .ok (xs.any (fun v => match v with
        | .str s => s == key
        | _ => false))
  | .str s => .ok (strContainsSub s.data key.data)
  | .num _ => .error .typeError
  | .bool _ => .error .typeError
  | .null => .error .typeError

/-- Python's item assignment `data[key] = v` with a string key: dict update
on dicts, and a `TypeError` on every other value. -/
def pySetItem (data : JValue) (key : String) (v : JValue) :
    Except PyExn JValue :=
  match data with
  | .obj kvs => .ok (.obj (dictSet kvs key v))
  | _ => .error .typeError

/-- One iteration of the update loop of `reset_machine_id` (kiro.py lines
123–126): `if key in data: data[key] = new_val; updated_keys.append(key)`. -/
def updateStep (acc : JValue × List String) (kv : String × String) :
    Except PyExn (JValue × List String) :=
  match pyContains kv.1 acc.1 with
  | .error e => .error e
  | .ok true =>
      match pySetItem acc.1 kv.1 (.str kv.2) with
      | .error e => .error e
      | .ok d => .ok (d, acc.2 ++ [kv.1])
  | .ok false => .ok acc

/-- The update loop of `reset_machine_id` over `new_ids.items()` in dict
insertion order, threading the mutated document and `updated_keys`. -/
def updateLoop (ids : List (String × String)) (data : JValue) :
    Except PyExn (JValue × List String) :=
  ids.foldlM updateStep (data, [])

/- ### Filesystem, timestamps, and the reset pipeline -/

/-- The filesystem as the source observes it: a map from paths to file
contents, as an association list (first binding wins). -/
structure FS where
  files : List (String × String)

/-- Read a file's content (`open(path).read()` / `os.path.isfile` when
testing for `none`). -/
def FS.read (fs : FS) (p : String) : Option String :=
  alistGet fs.files p

/-- The association-list update underlying a file write: replace the first
binding for the path, or append a new one. -/
def writeList : List (String × String) → String → String → List (String × String)
  | [], p, c => [(p, c)]
  | (q, d) :: rest, p, c =>
      if q = p then (p, c) :: rest else (q, d) :: writeList rest p c

/-- Write (create or overwrite) a file. -/
def FS.write (fs : FS) (p : String) (c : String) : FS :=
  ⟨writeList fs.files p c⟩

/-- A wall-clock instant as Python's `datetime.datetime.now()` returns it;
`strftime("%Y%m%d_%H%M%S")` drops the sub-second field. -/
structure PyDateTime where
  year : Nat
  month : Nat
  day : Nat
  hour : Nat
  minute : Nat
  second : Nat
  microsecond : Nat

/-- Zero-pad the decimal rendering of `n` to at least `w` characters
(Python's `%0wd` formatting inside `strftime`). -/
def padNum (w n : Nat) : String :=
  let s := toString n
  String.mk (List.replicate (w - s.length) '0') ++ s

/-- Model of `datetime.now().strftime("%Y%m%d_%H%M%S")` (kiro.py line 79):
second-resolution, the microsecond field is dropped. -/
def strftimeTS (t : PyDateTime) : String :=
  padNum 4 t.year ++ padNum 2 t.month ++ padNum 2 t.day ++ "_" ++
    padNum 2 t.hour ++ padNum 2 t.minute ++ padNum 2 t.second

/-- The backup path `f"{src_path}.bak.{timestamp}"` (kiro.py line 80). -/
def backupPath (src : String) (t : PyDateTime) : String :=
  src ++ ".bak." ++ strftimeTS t

/-- The console messages the source prints, one constructor per `print`
statement of `backup_file` and `reset_machine_id` (payloads keep the data
interpolated into the f-string). -/
inductive Msg where
  | header : Msg
  | fileNotFound : String → Msg
  | backupMissing : String → Msg
  | backupCreated : String → Msg
  | backupError : Msg
  | parseError : Msg
  | noTargetKeys : Msg
  | updated : List String → Msg
  | writeError : Msg
deriving DecidableEq

/-- Embedding of `backup_file` (kiro.py lines 74–86).  `t` is the instant
`datetime.now()` returns; `copyFails` tells whether `shutil.copy2` raises
(the `except` branch).  Returns the new filesystem, the printed messages,
and the Python return value (`backup_path` or `None`).  `shutil.copy2`
copies the full byte content (metadata is not modelled). -/
def backup_file (fs : FS) (src : String) (t : PyDateTime) (copyFails : Bool) :
    FS × List Msg × Option String :=
  match fs.read src with
  | none => (fs, [.backupMissing src], none)
  | some content =>
      if copyFails then (fs, [.backupError], none)
      else
        let bp := backupPath src t
        (fs.write bp content, [.backupCreated bp], some bp)

/-- How a call to `reset_machine_id` terminates: a normal return (the
source always returns `None` — both bare `return` statements and falling
off the end) or an uncaught exception propagating to the caller. -/
inductive Term where
  | ret : Term
  | exn : PyExn → Term

/-- The observable result of one `reset_machine_id` call: the final
filesystem, the console lines printed, and how the call terminated. -/
structure ResetOut where
  fs : FS
  printed : List Msg
  term : Term

/-- `os.path.expandvars(r"%APPDATA%\Kiro\User\globalStorage\storage.json")`
(kiro.py line 105), with the `APPDATA` environment variable as a parameter. -/
def storagePath (appdata : String) : String :=
  appdata ++ "\\Kiro\\User\\globalStorage\\storage.json"

/-- Embedding of `reset_machine_id` (kiro.py lines 103–137).  Parameters
beyond the filesystem: the `APPDATA` value, the four `uuid.uuid4()` draws
consumed by `generate_machine_ids`, the `datetime.now()` instant used for
the backup name, and two oracles telling whether the backup copy and the
final write raise (the bodies of the two inner `try` blocks).  The
`except` around `json.load` catches every exception of the read-and-parse
step, so a file that disappeared or unparseable content both print the
same error; a failed write leaves the document unchanged (partial writes
are not modelled).  The update loop (lines 123–126) is outside every
`try`, so a `TypeError` raised there propagates as `Term.exn`. -/
def reset_machine_id (fs : FS) (appdata : String) (u1 u2 u3 u4 : Uuid4)
    (t : PyDateTime) (copyFails writeFails : Bool) : ResetOut :=
  let storage_path := storagePath appdata
  match fs.read storage_path with
  | none => ⟨fs, [.header, .fileNotFound storage_path], .ret⟩
  | some _ =>
      let b := backup_file fs storage_path t copyFails
      let fs1 := b.1
      let printed := Msg.header :: b.2.1
      match fs1.read storage_path with
      | none => ⟨fs1, printed ++ [.parseError], .ret⟩
      | some content =>
          match json_loads content with
          | none => ⟨fs1, printed ++ [.parseError], .ret⟩
          | some data =>
              let new_ids := generate_machine_ids u1 u2 u3 u4
              match updateLoop new_ids data with
              | .error e => ⟨fs1, printed, .exn e⟩
              | .ok (data', updated_keys) =>
                  if updated_keys.isEmpty then
                    ⟨fs1, printed ++ [.noTargetKeys], .ret⟩
                  else if writeFails then
                    ⟨fs1, printed ++ [.writeError], .ret⟩
                  else
                    ⟨fs1.write storage_path (json_dumps data'),
                     printed ++ [.updated updated_keys], .ret⟩

/- ### Format-contract checkers (formalising the spec's §4.1 format contract) -/

/-- Consume one expected character from the front of the input. -/
def consumeChar (c : Char) : List Char → Option (List Char)
  | [] => none
  | x :: rest => if x == c then some rest else none

/-- Consume `n` hexadecimal digits (uppercase when `upper`, else lowercase)
from the front of the input. -/
def consumeHex (upper : Bool) : Nat → List Char → Option (List Char)
  | 0, cs => some cs
  | _ + 1, [] => none
  | n + 1, c :: cs =>
      if (if upper then isUpperHexChar c else isLowerHexChar c) then
        consumeHex upper n cs
      else none

/-- `c` is a legal UUID-variant-1 nibble character (`8`, `9`, `a`/`A`,
`b`/`B`), in the requested case. -/
def isVariantChar (upper : Bool) (c : Char) : Bool :=
  c == '8' || c == '9' ||
    (if upper then c == 'A' || c == 'B' else c == 'a' || c == 'b')

/-- Consume one UUID-variant nibble character. -/
def consumeVariant (upper : Bool) : List Char → Option (List Char)
  | [] => none
  | c :: rest => if isVariantChar upper c then some rest else none

/-- Consume one canonical UUID-v4 textual form (8-4-4-4-12 hexadecimal
groups joined by dashes, version nibble `4`, variant nibble `8`/`9`/`a`/`b`),
in the requested case, returning the remaining input. -/
def checkUuid4 (upper : Bool) (cs : List Char) : Option (List Char) :=
  (consumeHex upper 8 cs).bind fun r1 =>
  (consumeChar '-' r1).bind fun r2 =>
  (consumeHex upper 4 r2).bind fun r3 =>
  (consumeChar '-' r3).bind fun r4 =>
  (consumeChar '4' r4).bind fun r5 =>
  (consumeHex upper 3 r5).bind fun r6 =>
  (consumeChar '-' r6).bind fun r7 =>
  (consumeVariant upper r7).bind fun r8 =>
  (consumeHex upper 3 r8).bind fun r9 =>
  (consumeChar '-' r9).bind fun r10 =>
  consumeHex upper 12 r10

/-- `s` is exactly a lowercase dashed UUID-v4 textual form. -/
def isUuid4String (s : String) : Bool :=
  checkUuid4 false s.data == some []

/-- `s` is exactly one leading brace, an upper-cased canonical UUID-v4
textual form, and one trailing brace — the spec's format for `sqmId`. -/
def isSqmString (s : String) : Bool :=
  match s.data with
  | c :: rest => c == '\x7b' && checkUuid4 true rest == some ['\x7d']
  | [] => false

/-- `s` is exactly `n` lowercase hexadecimal characters. -/
def isLowerHexStrN (n : Nat) (s : String) : Bool :=
  s.data.length == n && s.data.all isLowerHexChar

/- ### Lemmas: hexadecimal renderings -/

/-- `hexDigits` always produces exactly `w` characters. -/
theorem hexDigits_length (w : Nat) : ∀ n, (hexDigits w n).length = w := by
  induction w with
  | zero => intro n; rfl
  | succ w ih => intro n; simp [hexDigits, ih]

/-- Every digit `hexDigitChar` produces from a nibble is lowercase hex. -/
theorem hexDigitChar_lower : ∀ d, d < 16 → isLowerHexChar (hexDigitChar d) = true := by
  decide

/-- Upper-casing a nibble digit gives an uppercase hex character. -/
theorem hexDigitChar_upper :
    ∀ d, d < 16 → isUpperHexChar ((hexDigitChar d).toUpper) = true := by
  decide

/-- Every character of a `hexDigits` rendering is lowercase hex. -/
theorem hexDigits_mem_lower (w : Nat) :
    ∀ n c, c ∈ hexDigits w n → isLowerHexChar c = true := by
  induction w with
  | zero => intro n c h; cases h
  | succ w ih =>
      intro n c h
      cases h with
      | head => exact hexDigitChar_lower _ (Nat.mod_lt _ (by norm_num))
      | tail _ h => exact ih n c h

/-- `consumeHex` accepts a lowercase `hexDigits` rendering and returns the
rest of the input. -/
theorem consumeHex_hexDigits (w : Nat) :
    ∀ n rest, consumeHex false w (hexDigits w n ++ rest) = some rest := by
  induction w with
  | zero => intro n rest; rfl
  | succ w ih =>
      intro n rest
      simp only [hexDigits, List.cons_append, consumeHex,
        hexDigitChar_lower _ (Nat.mod_lt _ (by norm_num)), if_true]
      exact ih n rest

/-- `consumeHex` accepts an upper-cased `hexDigits` rendering. -/
theorem consumeHex_hexDigits_upper (w : Nat) :
    ∀ n rest,
      consumeHex true w ((hexDigits w n).map Char.toUpper ++ rest) = some rest := by
  induction w with
  | zero => intro n rest; rfl
  | succ w ih =>
      intro n rest
      simp only [hexDigits, List.map_cons, List.cons_append, consumeHex,
        hexDigitChar_upper _ (Nat.mod_lt _ (by norm_num)), if_true]
      exact ih n rest

/-- The dashed-group decomposition of `uuidStr`: Python's slicing of the
32-digit hex form equals five independently rendered groups. -/
theorem uuidStr_groups (val : Nat) :
    uuidStr val = String.mk
      (hexDigits 8 (val >>> 96) ++ '-' :: (hexDigits 4 (val >>> 80) ++ '-' ::
        (hexDigits 4 (val >>> 64) ++ '-' :: (hexDigits 4 (val >>> 48) ++ '-' ::
          hexDigits 12 val)))) := rfl

/-- Corollary of `consumeHex_hexDigits` with empty remainder. -/
theorem consumeHex_self (w n : Nat) :
    consumeHex false w (hexDigits w n) = some [] := by
  have h := consumeHex_hexDigits w n []
  simpa using h

/-- A nibble below 16 whose high two bits are `10` renders as a lowercase
variant character. -/
theorem variantChar_lower :
    ∀ d, d < 16 → d / 4 = 2 → isVariantChar false (hexDigitChar d) = true := by
  decide

/-- A nibble below 16 whose high two bits are `10` upper-cases to an
uppercase variant character. -/
theorem variantChar_upper :
    ∀ d, d < 16 → d / 4 = 2 → isVariantChar true ((hexDigitChar d).toUpper) = true := by
  decide

/-- The version-nibble arithmetic: the thirteenth hex digit of a `Uuid4`
value is `4`. -/
theorem uuid_ver_digit (u : Uuid4) :
    hexDigitChar (((u.val >>> 64) >>> 12) % 16) = '4' := by
  rw [← Nat.shiftRight_add]
  norm_num
  rw [u.ver]
  rfl

/-- The variant-nibble arithmetic: the seventeenth hex digit of a `Uuid4`
value divides by four to `2`. -/
theorem uuid_var_digit (u : Uuid4) : ((u.val >>> 48) >>> 12) % 16 / 4 = 2 := by
  rw [← Nat.shiftRight_add]
  norm_num
  have h1 : ((u.val >>> 60) % 16) / 4 = ((u.val >>> 60) / 4) % 4 := by
    have h := Nat.mod_mul_right_div_self (u.val >>> 60) 4 4
    norm_num at h
    exact h
  have h2 : (u.val >>> 60) / 4 = u.val >>> 62 := by
    rw [Nat.shiftRight_eq_div_pow, Nat.shiftRight_eq_div_pow,
      Nat.div_div_eq_div_mul]
  rw [h1, h2, u.var2]

/-- The string form of a version-4 UUID passes the lowercase dashed
UUID-v4 checker. -/
theorem isUuid4String_uuidStr (u : Uuid4) :
    isUuid4String (uuidStr u.val) = true := by
  have hC : hexDigits 4 (u.val >>> 64) = '4' :: hexDigits 3 (u.val >>> 64) := by
    have h : hexDigits 4 (u.val >>> 64) =
        hexDigitChar (((u.val >>> 64) >>> 12) % 16) :: hexDigits 3 (u.val >>> 64) := rfl
    rw [h, uuid_ver_digit]
  have hD : hexDigits 4 (u.val >>> 48) =
      hexDigitChar (((u.val >>> 48) >>> 12) % 16) :: hexDigits 3 (u.val >>> 48) := rfl
  have hvarc : isVariantChar false (hexDigitChar (((u.val >>> 48) >>> 12) % 16)) = true :=
    variantChar_lower _ (Nat.mod_lt _ (by norm_num)) (uuid_var_digit u)
  rw [uuidStr_groups]
  unfold isUuid4String
  rw [show (String.mk (hexDigits 8 (u.val >>> 96) ++ '-' ::
      (hexDigits 4 (u.val >>> 80) ++ '-' :: (hexDigits 4 (u.val >>> 64) ++ '-' ::
        (hexDigits 4 (u.val >>> 48) ++ '-' :: hexDigits 12 u.val))))).data =
      hexDigits 8 (u.val >>> 96) ++ '-' :: (hexDigits 4 (u.val >>> 80) ++ '-' ::
        (hexDigits 4 (u.val >>> 64) ++ '-' :: (hexDigits 4 (u.val >>> 48) ++ '-' ::
          hexDigits 12 u.val))) from rfl]
  rw [hC, hD]
  simp only [checkUuid4, List.cons_append, consumeHex_hexDigits, Option.bind,
    consumeChar, consumeVariant, hvarc, if_true, beq_self_eq_true,
    consumeHex_self]

/-- Upper-casing fixes the dash. -/
theorem toUpper_dash : Char.toUpper '-' = '-' := by decide

/-- Upper-casing fixes the version digit. -/
theorem toUpper_four : Char.toUpper '4' = '4' := by decide

/-- The braced, upper-cased string form of a version-4 UUID passes the
`sqmId` checker. -/
theorem isSqmString_sqm (u : Uuid4) :
    isSqmString ("\x7b" ++ pyUpper (uuidStr u.val) ++ "\x7d") = true := by
  have hC : hexDigits 4 (u.val >>> 64) = '4' :: hexDigits 3 (u.val >>> 64) := by
    have h : hexDigits 4 (u.val >>> 64) =
        hexDigitChar (((u.val >>> 64) >>> 12) % 16) :: hexDigits 3 (u.val >>> 64) := rfl
    rw [h, uuid_ver_digit]
  have hD : hexDigits 4 (u.val >>> 48) =
      hexDigitChar (((u.val >>> 48) >>> 12) % 16) :: hexDigits 3 (u.val >>> 48) := rfl
  have hvarcU : isVariantChar true
      ((hexDigitChar (((u.val >>> 48) >>> 12) % 16)).toUpper) = true :=
    variantChar_upper _ (Nat.mod_lt _ (by norm_num)) (uuid_var_digit u)
  rw [uuidStr_groups]
  unfold isSqmString pyUpper
  rw [hC, hD]
  simp only [String.data_append, List.map_append, List.map_cons, toUpper_dash,
    toUpper_four, List.cons_append, List.append_assoc]
  simp only [checkUuid4, List.cons_append, consumeHex_hexDigits_upper,
    Option.bind, consumeChar, consumeVariant, hvarcU, if_true,
    beq_self_eq_true, Bool.true_and, List.append_nil]
  simp [consumeHex_hexDigits_upper, hvarcU]

/-- Length of the concatenated hexadecimal rendering of a word list. -/
theorem hexcat_length (ws : List Nat) :
    (ws.foldr (fun w acc => hexDigits 8 w ++ acc) []).length = 8 * ws.length := by
  induction ws with
  | nil => rfl
  | cons w ws ih =>
      simp only [List.foldr, List.length_append, hexDigits_length, ih,
        List.length_cons]
      ring

/-- Every character of the concatenated hexadecimal rendering is lowercase
hex. -/
theorem hexcat_lower (ws : List Nat) :
    ∀ c ∈ ws.foldr (fun w acc => hexDigits 8 w ++ acc) [],
      isLowerHexChar c = true := by
  induction ws with
  | nil => intro c hc; cases hc
  | cons w ws ih =>
      intro c hc
      simp only [List.foldr, List.mem_append] at hc
      rcases hc with h | h
      · exact hexDigits_mem_lower 8 w c h
      · exact ih c h

/-- A SHA-256 hex digest is exactly 64 lowercase hexadecimal characters. -/
theorem sha256hex_hex64 (msg : List Nat) :
    isLowerHexStrN 64 (sha256hex msg) = true := by
  unfold isLowerHexStrN sha256hex
  have hlen : (sha256words msg).length = 8 := rfl
  rw [Bool.and_eq_true, beq_iff_eq]
  constructor
  · show ((sha256words msg).foldr (fun w acc => hexDigits 8 w ++ acc) []).length = 64
    rw [hexcat_length, hlen]
  · rw [List.all_eq_true]
    intro c hc
    exact hexcat_lower (sha256words msg) c hc

/-- A UUID's dashless hex form is exactly 32 lowercase hexadecimal
characters. -/
theorem uuidHexStr_hex32 (val : Nat) :
    isLowerHexStrN 32 (uuidHexStr val) = true := by
  unfold isLowerHexStrN uuidHexStr
  rw [Bool.and_eq_true, beq_iff_eq]
  constructor
  · exact hexDigits_length 32 val
  · rw [List.all_eq_true]
    intro c hc
    exact hexDigits_mem_lower 32 val c hc

/-- The dashed UUID string form has 36 characters. -/
theorem uuidStr_length (val : Nat) : (uuidStr val).length = 36 := by
  rw [uuidStr_groups]
  show (hexDigits 8 (val >>> 96) ++ '-' :: (hexDigits 4 (val >>> 80) ++ '-' ::
    (hexDigits 4 (val >>> 64) ++ '-' :: (hexDigits 4 (val >>> 48) ++ '-' ::
      hexDigits 12 val)))).length = 36
  simp [hexDigits_length]

/-- A string of positive length is not the empty string. -/
theorem ne_empty_of_length {s : String} {n : Nat} (h : s.length = n)
    (hn : 0 < n) : s ≠ "" := by
  intro he
  rw [he] at h
  simp [String.length] at h
  omega

/- ### C3 and C4: the generated identifier set -/

/-- The five fixed target keys, in the insertion order of the dict literal
of `generate_machine_ids`. -/
def targetKeys : List String :=
  ["telemetry.devDeviceId", "telemetry.macMachineId", "telemetry.machineId",
   "telemetry.sqmId", "storage.serviceMachineId"]

/-- The keys of a generated identifier set are exactly the five target
keys. -/
theorem generate_machine_ids_keys (u1 u2 u3 u4 : Uuid4) :
    (generate_machine_ids u1 u2 u3 u4).map Prod.fst = targetKeys := rfl

/-- C3: every identifier set generated by `generate_machine_ids` satisfies
the format contract: the five values are keyed by the five fixed target
keys and are non-empty; `devDeviceId` and `machineId` are lowercase dashed
UUID-v4 textual forms; `sqmId` is an upper-cased canonical UUID-v4 wrapped
in exactly one leading and one trailing brace; `macMachineId` is the
64-character lowercase hexadecimal SHA-256 digest of the bytes of the
fourth UUID draw's 32-character dashless lowercase hex form. -/
theorem claim_c3_generate_format (u1 u2 u3 u4 : Uuid4) :
    let ids := generate_machine_ids u1 u2 u3 u4
    ids.map Prod.fst = targetKeys
    ∧ isUuid4String ((alistGet ids "telemetry.devDeviceId").getD "") = true
    ∧ isUuid4String ((alistGet ids "telemetry.machineId").getD "") = true
    ∧ isSqmString ((alistGet ids "telemetry.sqmId").getD "") = true
    ∧ isLowerHexStrN 64 ((alistGet ids "telemetry.macMachineId").getD "") = true
    ∧ (alistGet ids "telemetry.macMachineId").getD "" =
        sha256hex (strBytes (uuidHexStr u4.val))
    ∧ isLowerHexStrN 32 (uuidHexStr u4.val) = true
    ∧ (alistGet ids "telemetry.devDeviceId").getD "" ≠ ""
    ∧ (alistGet ids "telemetry.machineId").getD "" ≠ ""
    ∧ (alistGet ids "telemetry.sqmId").getD "" ≠ ""
    ∧ (alistGet ids "telemetry.macMachineId").getD "" ≠ ""
    ∧ (alistGet ids "storage.serviceMachineId").getD "" ≠ "" := by
  intro ids
  have hdev : (alistGet ids "telemetry.devDeviceId").getD "" = uuidStr u1.val := rfl
  have hmac : (alistGet ids "telemetry.macMachineId").getD "" =
      sha256hex (strBytes (uuidHexStr u4.val)) := rfl
  have hmach : (alistGet ids "telemetry.machineId").getD "" = uuidStr u2.val := rfl
  have hsqm : (alistGet ids "telemetry.sqmId").getD "" =
      "\x7b" ++ pyUpper (uuidStr u3.val) ++ "\x7d" := rfl
  have hsvc : (alistGet ids "storage.serviceMachineId").getD "" = uuidStr u1.val := rfl
  have hsqmne : ("\x7b" ++ pyUpper (uuidStr u3.val) ++ "\x7d") ≠ "" := by
    intro he
    have h := congrArg String.length he
    rw [String.length_append, String.length_append] at h
    have h1 : ("\x7b" : String).length = 1 := rfl
    have h2 : ("\x7d" : String).length = 1 := rfl
    have h0 : ("" : String).length = 0 := rfl
    rw [h1, h2, h0] at h
    omega
  have hmacne : sha256hex (strBytes (uuidHexStr u4.val)) ≠ "" := by
    have h64 := sha256hex_hex64 (strBytes (uuidHexStr u4.val))
    unfold isLowerHexStrN at h64
    rw [Bool.and_eq_true, beq_iff_eq] at h64
    obtain ⟨hlen, _⟩ := h64
    intro he
    rw [he] at hlen
    have h0 : ("" : String).data.length = 0 := rfl
    omega
  refine ⟨rfl, ?_, ?_, ?_, ?_, ?_, ?_, ?_, ?_, ?_, ?_, ?_⟩
  · rw [hdev]; exact isUuid4String_uuidStr u1
  · rw [hmach]; exact isUuid4String_uuidStr u2
  · rw [hsqm]; exact isSqmString_sqm u3
  · rw [hmac]; exact sha256hex_hex64 _
  · exact hmac
  · exact uuidHexStr_hex32 u4.val
  · rw [hdev]; exact ne_empty_of_length (uuidStr_length u1.val) (by norm_num)
  · rw [hmach]; exact ne_empty_of_length (uuidStr_length u2.val) (by norm_num)
  · rw [hsqm]; exact hsqmne
  · rw [hmac]; exact hmacne
  · rw [hsvc]; exact ne_empty_of_length (uuidStr_length u1.val) (by norm_num)

/-- C4: in every generated identifier set, `storage.serviceMachineId`
holds exactly the same string as `telemetry.devDeviceId`; the two fields
are one value, not independently generated. -/
theorem claim_c4_service_eq_dev (u1 u2 u3 u4 : Uuid4) :
    alistGet (generate_machine_ids u1 u2 u3 u4) "storage.serviceMachineId" =
      alistGet (generate_machine_ids u1 u2 u3 u4) "telemetry.devDeviceId" := rfl

/- ### Lemmas: the dict update loop -/

/-- Python's `key in dict`: some binding for `k` exists. -/
def dictHasKey (kvs : List (String × JValue)) (k : String) : Bool :=
  kvs.any (fun kv => kv.1 == k)

/-- The pure effect of the update loop on a dict: for each `(k, v)` pair in
order, overwrite `k` with the string `v` when `k` is present. -/
def updFun : List (String × String) → List (String × JValue) →
    List (String × JValue)
  | [], kvs => kvs
  | (k, v) :: rest, kvs =>
      if dictHasKey kvs k then updFun rest (dictSet kvs k (.str v))
      else updFun rest kvs

/-- The `updated_keys` list the update loop accumulates. -/
def updatedOf : List (String × String) → List (String × JValue) → List String
  | [], _ => []
  | (k, v) :: rest, kvs =>
      if dictHasKey kvs k then k :: updatedOf rest (dictSet kvs k (.str v))
      else updatedOf rest kvs

/-- `dictSet` on a present key preserves the key list. -/
theorem dictSet_map_fst (kvs : List (String × JValue)) (k : String) (v : JValue)
    (h : dictHasKey kvs k = true) :
    (dictSet kvs k v).map Prod.fst = kvs.map Prod.fst := by
  induction kvs with
  | nil => simp [dictHasKey] at h
  | cons kv rest ih =>
      obtain ⟨k', v'⟩ := kv
      by_cases hk : k' = k
      · simp [dictSet, hk]
      · have h' : dictHasKey rest k = true := by
          simp [dictHasKey, List.any_cons, hk] at h
          simp [dictHasKey, List.any_eq_true]
          simpa [List.any_eq_true] using h
        simp [dictSet, hk, ih h']

/-- Reading back the key just set. -/
theorem alistGet_dictSet_self (kvs : List (String × JValue)) (k : String)
    (v : JValue) : alistGet (dictSet kvs k v) k = some v := by
  induction kvs with
  | nil => simp [dictSet, alistGet]
  | cons kv rest ih =>
      obtain ⟨k', v'⟩ := kv
      by_cases hk : k' = k
      · simp [dictSet, hk, alistGet]
      · simp [dictSet, hk, alistGet, ih]

/-- Setting one key leaves every other key's value unchanged. -/
theorem alistGet_dictSet_ne (kvs : List (String × JValue)) (k k' : String)
    (v : JValue) (h : k' ≠ k) :
    alistGet (dictSet kvs k v) k' = alistGet kvs k' := by
  induction kvs with
  | nil =>
      have hne : ¬ (k = k') := fun he => h he.symm
      simp [dictSet, alistGet, hne]
  | cons kv rest ih =>
      obtain ⟨k0, v0⟩ := kv
      by_cases hk : k0 = k
      · have hne : ¬ (k = k') := fun he => h he.symm
        simp [dictSet, hk, alistGet, hne]
      · by_cases hk' : k0 = k'
        · subst hk'
          simp [dictSet, hk, alistGet]
        · simp [dictSet, hk, alistGet, hk', ih]

/-- `dictHasKey` agrees with membership in the key list. -/
theorem dictHasKey_iff (kvs : List (String × JValue)) (k : String) :
    dictHasKey kvs k = true ↔ k ∈ kvs.map Prod.fst := by
  simp [dictHasKey, List.any_eq_true, List.mem_map, beq_iff_eq]

/-- The update loop never changes the key list of the document. -/
theorem updFun_map_fst (ids : List (String × String)) :
    ∀ kvs, (updFun ids kvs).map Prod.fst = kvs.map Prod.fst := by
  induction ids with
  | nil => intro kvs; rfl
  | cons kv rest ih =>
      intro kvs
      obtain ⟨k, v⟩ := kv
      by_cases h : dictHasKey kvs k = true
      · simp [updFun, h, ih, dictSet_map_fst _ _ _ h]
      · simp [updFun, h, ih]

/-- A key outside the update list keeps its original value. -/
theorem updFun_alistGet_notin (ids : List (String × String)) :
    ∀ kvs k, k ∉ ids.map Prod.fst →
      alistGet (updFun ids kvs) k = alistGet kvs k := by
  induction ids with
  | nil => intro kvs k _; rfl
  | cons kv rest ih =>
      intro kvs k hk
      obtain ⟨k0, v0⟩ := kv
      simp only [List.map_cons, List.mem_cons, not_or] at hk
      obtain ⟨hne, hrest⟩ := hk
      by_cases h : dictHasKey kvs k0 = true
      · rw [updFun, if_pos h, ih _ _ hrest, alistGet_dictSet_ne _ _ _ _ hne]
      · rw [updFun, if_neg h, ih _ _ hrest]

/-- A present target key ends up holding the generated string. -/
theorem updFun_alistGet_target (ids : List (String × String)) :
    ∀ kvs k v, (ids.map Prod.fst).Nodup → alistGet ids k = some v →
      k ∈ kvs.map Prod.fst →
      alistGet (updFun ids kvs) k = some (JValue.str v) := by
  induction ids with
  | nil => intro kvs k v _ hget _; cases hget
  | cons kv rest ih =>
      intro kvs k v hnd hget hmem
      obtain ⟨k0, v0⟩ := kv
      simp only [List.map_cons, List.nodup_cons] at hnd
      obtain ⟨hk0nin, hndrest⟩ := hnd
      by_cases hk : k0 = k
      · subst hk
        have hv : v0 = v := by
          rw [alistGet, if_pos rfl] at hget
          exact Option.some.inj hget
        subst hv
        have hdk : dictHasKey kvs k0 = true := (dictHasKey_iff kvs k0).2 hmem
        rw [updFun, if_pos hdk,
          updFun_alistGet_notin rest _ _ hk0nin,
          alistGet_dictSet_self]
      · have hget' : alistGet rest k = some v := by
          rw [alistGet, if_neg hk] at hget
          exact hget
        by_cases hdk : dictHasKey kvs k0 = true
        · have hmem' : k ∈ (dictSet kvs k0 (JValue.str v0)).map Prod.fst := by
            rw [dictSet_map_fst _ _ _ hdk]
            exact hmem
          rw [updFun, if_pos hdk]
          exact ih _ _ _ hndrest hget' hmem'
        · rw [updFun, if_neg hdk]
          exact ih _ _ _ hndrest hget' hmem

/-- When no update key is present in the document, nothing is recorded as
updated. -/
theorem updatedOf_nil (ids : List (String × String)) :
    ∀ kvs, (∀ p ∈ ids, dictHasKey kvs p.1 = false) →
      updatedOf ids kvs = [] := by
  induction ids with
  | nil => intro kvs _; rfl
  | cons kv rest ih =>
      intro kvs h
      obtain ⟨k, v⟩ := kv
      have hk : dictHasKey kvs k = false := h (k, v) (List.mem_cons_self _ _)
      rw [updatedOf, if_neg (by simp [hk])]
      exact ih kvs (fun p hp => h p (List.mem_cons_of_mem _ hp))

/-- On a dict, the update loop never raises and computes `updFun` and
`updatedOf`. -/
theorem foldlM_updateStep (ids : List (String × String)) :
    ∀ kvs acc,
      List.foldlM updateStep (JValue.obj kvs, acc) ids =
        .ok (.obj (updFun ids kvs), acc ++ updatedOf ids kvs) := by
  induction ids with
  | nil =>
      intro kvs acc
      simp only [List.foldlM, updFun, updatedOf, List.append_nil]
      rfl
  | cons kv rest ih =>
      intro kvs acc
      obtain ⟨k, v⟩ := kv
      by_cases h : dictHasKey kvs k = true
      · have h' : (kvs.any fun kv => kv.1 == k) = true := h
        have hstep : updateStep (JValue.obj kvs, acc) (k, v) =
            .ok (.obj (dictSet kvs k (.str v)), acc ++ [k]) := by
          simp only [updateStep, pyContains, pySetItem, h']
        have hf : List.foldlM updateStep (JValue.obj kvs, acc) ((k, v) :: rest) =
            List.foldlM updateStep
              (JValue.obj (dictSet kvs k (.str v)), acc ++ [k]) rest := by
          simp only [List.foldlM, hstep]
          rfl
        rw [hf, ih]
        simp [updFun, updatedOf, h, List.append_assoc]
      · have hb : dictHasKey kvs k = false := by simpa using h
        have hb' : (kvs.any fun kv => kv.1 == k) = false := hb
        have hstep : updateStep (JValue.obj kvs, acc) (k, v) =
            .ok (JValue.obj kvs, acc) := by
          simp only [updateStep, pyContains, hb']
        have hf : List.foldlM updateStep (JValue.obj kvs, acc) ((k, v) :: rest) =
            List.foldlM updateStep (JValue.obj kvs, acc) rest := by
          simp only [List.foldlM, hstep]
          rfl
        rw [hf, ih]
        simp [updFun, updatedOf, hb]

/-- `updateLoop` on a dict succeeds with the pure update. -/
theorem updateLoop_obj (ids : List (String × String))
    (kvs : List (String × JValue)) :
    updateLoop ids (.obj kvs) = .ok (.obj (updFun ids kvs), updatedOf ids kvs) := by
  have h := foldlM_updateStep ids kvs []
  simpa [updateLoop] using h

/- ### Lemmas: the filesystem model -/

/-- Reading back a just-written file. -/
theorem writeList_get_self (l : List (String × String)) (p c : String) :
    alistGet (writeList l p c) p = some c := by
  induction l with
  | nil => simp [writeList, alistGet]
  | cons qd rest ih =>
      obtain ⟨q, d⟩ := qd
      by_cases hq : q = p
      · simp [writeList, hq, alistGet]
      · simp [writeList, hq, alistGet, ih]

/-- A write leaves every other path's content unchanged. -/
theorem writeList_get_ne (l : List (String × String)) (p q c : String)
    (h : q ≠ p) : alistGet (writeList l p c) q = alistGet l q := by
  induction l with
  | nil =>
      have hne : ¬ (p = q) := fun he => h he.symm
      simp [writeList, alistGet, hne]
  | cons rd rest ih =>
      obtain ⟨r, d⟩ := rd
      by_cases hr : r = p
      · subst hr
        have hne : ¬ (r = q) := fun he => h he.symm
        simp [writeList, alistGet, hne]
      · by_cases hrq : r = q
        · subst hrq
          simp [writeList, hr, alistGet]
        · simp [writeList, hr, alistGet, hrq, ih]

/-- Overwriting an existing path does not change the set of paths. -/
theorem writeList_map_fst (l : List (String × String)) (p c : String)
    (h : p ∈ l.map Prod.fst) :
    (writeList l p c).map Prod.fst = l.map Prod.fst := by
  induction l with
  | nil => cases h
  | cons qd rest ih =>
      obtain ⟨q, d⟩ := qd
      by_cases hq : q = p
      · simp [writeList, hq]
      · have h' : p ∈ rest.map Prod.fst := by
          rcases List.mem_cons.1 h with he | hm
          · exact absurd he.symm hq
          · exact hm
        simp [writeList, hq, ih h']

/-- A written path is among the paths afterwards. -/
theorem mem_writeList_map_fst (l : List (String × String)) (p c : String) :
    p ∈ (writeList l p c).map Prod.fst := by
  induction l with
  | nil => simp [writeList]
  | cons qd rest ih =>
      obtain ⟨q, d⟩ := qd
      by_cases hq : q = p
      · simp [writeList, hq]
      · have hw : writeList ((q, d) :: rest) p c = (q, d) :: writeList rest p c := by
          simp [writeList, hq]
        rw [hw, List.map_cons]
        exact List.mem_cons_of_mem _ ih

/-- `FS.read` after `FS.write` at the same path. -/
theorem FS.read_write_self (fs : FS) (p c : String) :
    (fs.write p c).read p = some c :=
  writeList_get_self fs.files p c

/-- `FS.read` after `FS.write` at a different path. -/
theorem FS.read_write_ne (fs : FS) (p q c : String) (h : q ≠ p) :
    (fs.write p c).read q = fs.read q :=
  writeList_get_ne fs.files p q c h

/-- A backup path is strictly longer than its source path, so the two
paths differ. -/
theorem src_ne_backupPath (src : String) (t : PyDateTime) :
    src ≠ backupPath src t := by
  intro h
  have hl := congrArg String.length h
  unfold backupPath at hl
  rw [String.length_append, String.length_append] at hl
  have h5 : (".bak." : String).length = 5 := rfl
  omega

/- ### The reset pipeline beyond the file check -/

/-- Is a console message one of the three `backup_file` messages? -/
def isBackupMsg : Msg → Bool
  | .backupMissing _ => true
  | .backupCreated _ => true
  | .backupError => true
  | _ => false

/-- The file content either fails to parse or parses to a JSON object
(the only shapes on which the update loop is exception-free). -/
def parsesSafely (s : String) : Bool :=
  match json_loads s with
  | none => true
  | some (.obj _) => true
  | some _ => false

/-- Full characterisation of `reset_machine_id` on an existing file:
after the file check, the run is determined by the backup oracle, the
parse result, the update loop, and the write oracle. -/
theorem reset_machine_id_unfold (fs : FS) (appdata : String)
    (u1 u2 u3 u4 : Uuid4) (t : PyDateTime) (cf wf : Bool) (s : String)
    (hread : fs.read (storagePath appdata) = some s) :
    reset_machine_id fs appdata u1 u2 u3 u4 t cf wf =
      (let p := storagePath appdata
       let fs1 := if cf then fs else fs.write (backupPath p t) s
       let bmsg := if cf then Msg.backupError
                   else Msg.backupCreated (backupPath p t)
       match json_loads s with
       | none => ⟨fs1, [.header, bmsg, .parseError], .ret⟩
       | some data =>
           match updateLoop (generate_machine_ids u1 u2 u3 u4) data with
           | .error e => ⟨fs1, [.header, bmsg], .exn e⟩
           | .ok (data', upd) =>
               if upd.isEmpty then ⟨fs1, [.header, bmsg, .noTargetKeys], .ret⟩
               else if wf then ⟨fs1, [.header, bmsg, .writeError], .ret⟩
               else ⟨fs1.write p (json_dumps data'),
                     [.header, bmsg, .updated upd], .ret⟩) := by
  have hne := src_ne_backupPath (storagePath appdata) t
  unfold reset_machine_id backup_file
  simp only [hread]
  cases cf with
  | true =>
      simp only [if_true]
      rw [hread]
      rfl
  | false =>
      simp only [Bool.false_eq_true, if_false]
      rw [FS.read_write_ne fs (backupPath (storagePath appdata) t)
        (storagePath appdata) s hne, hread]
      rfl

/- ### Claim theorems: the reset pipeline -/

/-- C5: on a path with no existing regular file, `reset_machine_id` prints
the file-not-found report and stops before any side effect — the result
filesystem is exactly the input filesystem, so no backup file exists and
the target path is untouched, and the call returns normally. -/
theorem claim_c5_file_not_found (fs : FS) (appdata : String)
    (u1 u2 u3 u4 : Uuid4) (t : PyDateTime) (cf wf : Bool)
    (h : fs.read (storagePath appdata) = none) :
    reset_machine_id fs appdata u1 u2 u3 u4 t cf wf =
      ⟨fs, [Msg.header, Msg.fileNotFound (storagePath appdata)], Term.ret⟩ := by
  unfold reset_machine_id
  simp only [h]

/-- The five target keys have no repeats. -/
theorem targetKeys_nodup : targetKeys.Nodup := by decide

/-- C1: on a document that parses to a JSON object, `reset_machine_id`
writes back (when at least one target key was updated; otherwise the file
keeps its exact prior content) the document `updFun ids kvs`, and that
document overwrites a key if and only if it is a present target key: its
key list is unchanged (so no key is ever inserted), every key outside the
five target keys keeps its original value, and every target key present in
the document now holds the freshly generated string. -/
theorem claim_c1_update_frame (fs : FS) (appdata : String)
    (u1 u2 u3 u4 : Uuid4) (t : PyDateTime) (cf : Bool) (s : String)
    (kvs : List (String × JValue))
    (hread : fs.read (storagePath appdata) = some s)
    (hparse : json_loads s = some (.obj kvs)) :
    ((reset_machine_id fs appdata u1 u2 u3 u4 t cf false).fs.read
        (storagePath appdata) =
      some (if updatedOf (generate_machine_ids u1 u2 u3 u4) kvs = [] then s
            else json_dumps (.obj (updFun (generate_machine_ids u1 u2 u3 u4) kvs))))
    ∧ (updFun (generate_machine_ids u1 u2 u3 u4) kvs).map Prod.fst =
        kvs.map Prod.fst
    ∧ (∀ k, k ∉ targetKeys →
        alistGet (updFun (generate_machine_ids u1 u2 u3 u4) kvs) k =
          alistGet kvs k)
    ∧ (∀ k v, k ∈ kvs.map Prod.fst →
        alistGet (generate_machine_ids u1 u2 u3 u4) k = some v →
        alistGet (updFun (generate_machine_ids u1 u2 u3 u4) kvs) k =
          some (JValue.str v)) := by
  have hne := src_ne_backupPath (storagePath appdata) t
  have hu := reset_machine_id_unfold fs appdata u1 u2 u3 u4 t cf false s hread
  simp only [hparse, updateLoop_obj] at hu
  refine ⟨?_, updFun_map_fst _ kvs, ?_, ?_⟩
  · rw [hu]
    by_cases hupd : updatedOf (generate_machine_ids u1 u2 u3 u4) kvs = []
    · simp only [hupd, List.isEmpty_nil, if_true, if_pos rfl]
      cases cf with
      | true => simpa using hread
      | false => simpa [FS.read_write_ne fs _ _ s hne] using hread
    · have hne2 : (updatedOf (generate_machine_ids u1 u2 u3 u4) kvs).isEmpty = false := by
        cases hq : updatedOf (generate_machine_ids u1 u2 u3 u4) kvs with
        | nil => exact absurd hq hupd
        | cons a l => rfl
      simp only [hne2, Bool.false_eq_true, if_false, if_neg hupd]
      cases cf <;> simp [FS.read_write_self]
  · intro k hk
    rw [← generate_machine_ids_keys u1 u2 u3 u4] at hk
    exact updFun_alistGet_notin _ kvs k hk
  · intro k v hmem hget
    have hnd : ((generate_machine_ids u1 u2 u3 u4).map Prod.fst).Nodup := by
      rw [generate_machine_ids_keys]
      exact targetKeys_nodup
    exact updFun_alistGet_target _ kvs k v hnd hget hmem

/-- C2: on a document that parses to a JSON object containing none of the
five target keys, `reset_machine_id` prints the no-target-keys report,
returns normally, and performs no write to the document: its content on
disk stays byte-for-byte the exact prior string. -/
theorem claim_c2_no_target_keys (fs : FS) (appdata : String)
    (u1 u2 u3 u4 : Uuid4) (t : PyDateTime) (cf wf : Bool) (s : String)
    (kvs : List (String × JValue))
    (hread : fs.read (storagePath appdata) = some s)
    (hparse : json_loads s = some (.obj kvs))
    (hnone : ∀ k ∈ targetKeys, k ∉ kvs.map Prod.fst) :
    (reset_machine_id fs appdata u1 u2 u3 u4 t cf wf).fs.read
        (storagePath appdata) = some s
    ∧ Msg.noTargetKeys ∈ (reset_machine_id fs appdata u1 u2 u3 u4 t cf wf).printed
    ∧ (reset_machine_id fs appdata u1 u2 u3 u4 t cf wf).term = Term.ret := by
  have hne := src_ne_backupPath (storagePath appdata) t
  have hupd : updatedOf (generate_machine_ids u1 u2 u3 u4) kvs = [] := by
    apply updatedOf_nil
    intro p hp
    have hpk : p.1 ∈ targetKeys := by
      rw [← generate_machine_ids_keys u1 u2 u3 u4]
      exact List.mem_map_of_mem Prod.fst hp
    have hnk := hnone p.1 hpk
    cases hq : dictHasKey kvs p.1 with
    | false => rfl
    | true => exact absurd ((dictHasKey_iff kvs p.1).1 hq) hnk
  have hu := reset_machine_id_unfold fs appdata u1 u2 u3 u4 t cf wf s hread
  simp only [hparse, updateLoop_obj, hupd, List.isEmpty_nil, if_true] at hu
  rw [hu]
  refine ⟨?_, ?_, rfl⟩
  · cases cf with
    | true => simpa using hread
    | false => simpa [FS.read_write_ne fs _ _ s hne] using hread
  · cases cf <;> simp

/-- C6: on an existing file whose content does not parse, `reset_machine_id`
prints the parse-error report after the backup step and returns normally
without writing the document: the document content is unchanged, and when
the backup copy is possible the backup file exists with the original
content (the whole effect being exactly that one backup write), while a
failed backup leaves the filesystem untouched. -/
theorem claim_c6_parse_error (fs : FS) (appdata : String)
    (u1 u2 u3 u4 : Uuid4) (t : PyDateTime) (cf wf : Bool) (s : String)
    (hread : fs.read (storagePath appdata) = some s)
    (hbad : json_loads s = none) :
    (reset_machine_id fs appdata u1 u2 u3 u4 t cf wf).fs.read
        (storagePath appdata) = some s
    ∧ Msg.parseError ∈ (reset_machine_id fs appdata u1 u2 u3 u4 t cf wf).printed
    ∧ (reset_machine_id fs appdata u1 u2 u3 u4 t cf wf).term = Term.ret
    ∧ (cf = false →
        (reset_machine_id fs appdata u1 u2 u3 u4 t cf wf).fs =
            fs.write (backupPath (storagePath appdata) t) s
        ∧ (reset_machine_id fs appdata u1 u2 u3 u4 t cf wf).fs.read
            (backupPath (storagePath appdata) t) = some s)
    ∧ (cf = true →
        (reset_machine_id fs appdata u1 u2 u3 u4 t cf wf).fs = fs) := by
  have hne := src_ne_backupPath (storagePath appdata) t
  have hu := reset_machine_id_unfold fs appdata u1 u2 u3 u4 t cf wf s hread
  simp only [hbad] at hu
  rw [hu]
  cases cf with
  | true =>
      refine ⟨by simpa using hread, by simp, rfl, ?_, ?_⟩
      · intro h; cases h
      · intro _; rfl
  | false =>
      refine ⟨?_, by simp, rfl, ?_, ?_⟩
      · simpa [FS.read_write_ne fs _ _ s hne] using hread
      · intro _
        exact ⟨rfl, FS.read_write_self fs _ s⟩
      · intro h; cases h

/-- C7: a failed backup copy is non-fatal — on an existing parseable file
the run with a failing backup and the run with a succeeding backup
terminate the same way, leave the document path (and every path other
than the backup path) with identical content, and print the same messages
apart from the backup-step line. -/
theorem claim_c7_backup_nonfatal (fs : FS) (appdata : String)
    (u1 u2 u3 u4 : Uuid4) (t : PyDateTime) (wf : Bool) (s : String)
    (data : JValue)
    (hread : fs.read (storagePath appdata) = some s)
    (hparse : json_loads s = some data) :
    (reset_machine_id fs appdata u1 u2 u3 u4 t true wf).term =
      (reset_machine_id fs appdata u1 u2 u3 u4 t false wf).term
    ∧ (reset_machine_id fs appdata u1 u2 u3 u4 t true wf).fs.read
        (storagePath appdata) =
      (reset_machine_id fs appdata u1 u2 u3 u4 t false wf).fs.read
        (storagePath appdata)
    ∧ (∀ p, p ≠ backupPath (storagePath appdata) t →
        (reset_machine_id fs appdata u1 u2 u3 u4 t true wf).fs.read p =
        (reset_machine_id fs appdata u1 u2 u3 u4 t false wf).fs.read p)
    ∧ (reset_machine_id fs appdata u1 u2 u3 u4 t true wf).printed.filter
        (fun m => !(isBackupMsg m)) =
      (reset_machine_id fs appdata u1 u2 u3 u4 t false wf).printed.filter
        (fun m => !(isBackupMsg m)) := by
  have hne := src_ne_backupPath (storagePath appdata) t
  have hu1 := reset_machine_id_unfold fs appdata u1 u2 u3 u4 t true wf s hread
  have hu0 := reset_machine_id_unfold fs appdata u1 u2 u3 u4 t false wf s hread
  simp only [hparse, eq_self_iff_true, if_true, Bool.false_eq_true, if_false]
    at hu1 hu0
  rw [hu1, hu0]
  cases hl : updateLoop (generate_machine_ids u1 u2 u3 u4) data with
  | error e =>
      refine ⟨rfl, ?_, ?_, ?_⟩
      · exact (FS.read_write_ne fs _ _ s hne).symm
      · intro p hp
        exact (FS.read_write_ne fs _ _ s hp).symm
      · simp [isBackupMsg]
  | ok pr =>
      obtain ⟨data', upd⟩ := pr
      by_cases hupd : upd.isEmpty = true
      · simp only [hupd, if_true]
        refine ⟨by trivial, ?_, ?_, ?_⟩
        · exact (FS.read_write_ne fs _ _ s hne).symm
        · intro p hp
          exact (FS.read_write_ne fs _ _ s hp).symm
        · simp [isBackupMsg]
      · have hupd' : upd.isEmpty = false := by simpa using hupd
        simp only [hupd', Bool.false_eq_true, if_false]
        cases wf with
        | true =>
            simp only [eq_self_iff_true, if_true]
            refine ⟨by trivial, ?_, ?_, ?_⟩
            · exact (FS.read_write_ne fs _ _ s hne).symm
            · intro p hp
              exact (FS.read_write_ne fs _ _ s hp).symm
            · simp [isBackupMsg]
        | false =>
            simp only [Bool.false_eq_true, if_false]
            refine ⟨by trivial, ?_, ?_, ?_⟩
            · exact (FS.read_write_self fs _ _).trans
                (FS.read_write_self (fs.write (backupPath (storagePath appdata) t) s) _ _).symm
            · intro p hp
              by_cases hps : p = storagePath appdata
              · subst hps
                exact (FS.read_write_self fs _ _).trans
                  (FS.read_write_self
                    (fs.write (backupPath (storagePath appdata) t) s) _ _).symm
              · rw [FS.read_write_ne fs _ p _ hps,
                  FS.read_write_ne (fs.write (backupPath (storagePath appdata) t) s) _ p _ hps,
                  FS.read_write_ne fs _ p s hp]
            · simp [isBackupMsg]

/- ### Concrete inputs for counterexamples and witnesses -/

/-- A concrete version-4 UUID value (version nibble 4, variant bits 10). -/
def uEx : Uuid4 := ⟨4 * 2 ^ 76 + 2 * 2 ^ 62, by norm_num, by decide, by decide⟩

/-- A concrete instant. -/
def tEx : PyDateTime := ⟨2026, 10, 12, 9, 5, 3, 123456⟩

/-- Concrete `storage.json` content holding one target key and one
unrelated key. -/
def cEx : String := "\x7b\"telemetry.machineId\": \"old\", \"unrelated\": 1\x7d"

/-- The parse of `cEx`. -/
def kvsEx : List (String × JValue) :=
  [("telemetry.machineId", .str "old"), ("unrelated", .num 1)]

/-- A filesystem holding `cEx` at the storage path for `APPDATA = "A"`. -/
def fsEx : FS := ⟨[(storagePath "A", cEx)]⟩

/-- A filesystem whose storage file holds the JSON number `0`. -/
def fsNum : FS := ⟨[(storagePath "A", "0")]⟩

/- ### C8: exception propagation -/

/-- C8 counterexample: on a file whose content parses as the JSON number
`0`, the membership test `key in data` of the update loop raises a
`TypeError` outside every `try` block, and the exception propagates
uncaught to the caller — refuting the claim that every failure is
converted into a status. -/
theorem claim_c8_counterexample :
    (reset_machine_id fsNum "A" uEx uEx uEx uEx tEx false false).term =
      Term.exn PyExn.typeError := by
  rfl

/-- C8 amended: every I/O failure (missing file, failed backup copy, parse
failure, failed write) is caught and converted into a printed status, and
whenever the file is absent, unparseable, or parses to a JSON object, the
call returns normally; only content parsing to a non-object JSON value can
raise an uncaught `TypeError` in the update loop. -/
theorem claim_c8_amended_no_exn (fs : FS) (appdata : String)
    (u1 u2 u3 u4 : Uuid4) (t : PyDateTime) (cf wf : Bool)
    (hsafe : Option.all parsesSafely (fs.read (storagePath appdata)) = true) :
    (reset_machine_id fs appdata u1 u2 u3 u4 t cf wf).term = Term.ret := by
  cases hread : fs.read (storagePath appdata) with
  | none =>
      unfold reset_machine_id
      simp only [hread]
  | some s =>
      have hs : parsesSafely s = true := by
        rw [hread] at hsafe
        simpa [Option.all] using hsafe
      have hu := reset_machine_id_unfold fs appdata u1 u2 u3 u4 t cf wf s hread
      unfold parsesSafely at hs
      cases hp : json_loads s with
      | none =>
          simp only [hp] at hu
          rw [hu]
      | some data =>
          rw [hp] at hs
          cases data with
          | obj kvs =>
              simp only [hp, updateLoop_obj] at hu
              rw [hu]
              split
              · rfl
              · split <;> rfl
          | arr xs => simp at hs
          | str s2 => simp at hs
          | num n => simp at hs
          | bool b => simp at hs
          | null => simp at hs

/- ### C9: output channel of the reset -/

/-- C9 counterexample: a concrete successful invocation prints three
console messages (header, backup report, updated-keys report) and
terminates by a plain `return` carrying no value — refuting the claim
that `reset_machine_id` never prints and hands the updated-key list back
to its caller. -/
theorem claim_c9_counterexample :
    (reset_machine_id fsEx "A" uEx uEx uEx uEx tEx false false).printed =
      [Msg.header,
       Msg.backupCreated (backupPath (storagePath "A") tEx),
       Msg.updated ["telemetry.machineId"]]
    ∧ (reset_machine_id fsEx "A" uEx uEx uEx uEx tEx false false).term =
        Term.ret := by
  constructor
  · rfl
  · rfl

/-- C9 amended: `reset_machine_id` communicates through the console, not
its return value: every run on an existing file prints the header first;
on a successful update it prints a message carrying the list of updated
keys and returns `None` (and the function reads no input — the model has
no input channel at all). -/
theorem claim_c9_amended_prints (fs : FS) (appdata : String)
    (u1 u2 u3 u4 : Uuid4) (t : PyDateTime) (cf : Bool) (s : String)
    (kvs : List (String × JValue))
    (hread : fs.read (storagePath appdata) = some s)
    (hparse : json_loads s = some (.obj kvs))
    (hupd : updatedOf (generate_machine_ids u1 u2 u3 u4) kvs ≠ []) :
    (reset_machine_id fs appdata u1 u2 u3 u4 t cf false).printed.head? =
        some Msg.header
    ∧ Msg.updated (updatedOf (generate_machine_ids u1 u2 u3 u4) kvs) ∈
        (reset_machine_id fs appdata u1 u2 u3 u4 t cf false).printed
    ∧ (reset_machine_id fs appdata u1 u2 u3 u4 t cf false).term = Term.ret := by
  have hu := reset_machine_id_unfold fs appdata u1 u2 u3 u4 t cf false s hread
  have hempty :
      (updatedOf (generate_machine_ids u1 u2 u3 u4) kvs).isEmpty = false := by
    cases hq : updatedOf (generate_machine_ids u1 u2 u3 u4) kvs with
    | nil => exact absurd hq hupd
    | cons a l => rfl
  simp only [hparse, updateLoop_obj, hempty, Bool.false_eq_true, if_false] at hu
  rw [hu]
  refine ⟨rfl, ?_, rfl⟩
  simp

/- ### C10: backup-path collisions within one second -/

/-- C10: the backup path depends only on the source path and the
second-resolution fields of the clock — two instants in the same
wall-clock second (differing microseconds) give the identical backup
path, and a second backup of the same source overwrites the first backup
artifact: the set of files does not grow and the backup path holds the
copied content. -/
theorem claim_c10_backup_overwrite (fs : FS) (src c : String)
    (t1 t2 : PyDateTime)
    (hy : t1.year = t2.year) (hmo : t1.month = t2.month)
    (hd : t1.day = t2.day) (hh : t1.hour = t2.hour)
    (hmi : t1.minute = t2.minute) (hs : t1.second = t2.second)
    (hread : fs.read src = some c) :
    backupPath src t1 = backupPath src t2
    ∧ ((backup_file ((backup_file fs src t1 false).1) src t2 false).1.files.map
          Prod.fst =
        (backup_file fs src t1 false).1.files.map Prod.fst)
    ∧ (backup_file ((backup_file fs src t1 false).1) src t2 false).1.read
        (backupPath src t1) = some c := by
  have hts : strftimeTS t1 = strftimeTS t2 := by
    unfold strftimeTS
    rw [hy, hmo, hd, hh, hmi, hs]
  have hbp : backupPath src t1 = backupPath src t2 := by
    unfold backupPath
    rw [hts]
  have hne := src_ne_backupPath src t1
  have hb1 : (backup_file fs src t1 false).1 = fs.write (backupPath src t1) c := by
    unfold backup_file
    rw [hread]
    rfl
  have hr2 : (fs.write (backupPath src t1) c).read src = some c := by
    rw [FS.read_write_ne fs _ _ _ hne]
    exact hread
  have hb2 : (backup_file (fs.write (backupPath src t1) c) src t2 false).1 =
      (fs.write (backupPath src t1) c).write (backupPath src t2) c := by
    unfold backup_file
    rw [hr2]
    rfl
  refine ⟨hbp, ?_, ?_⟩
  · rw [hb1, hb2, ← hbp]
    exact writeList_map_fst _ _ _ (mem_writeList_map_fst fs.files _ c)
  · rw [hb1, hb2, ← hbp]
    exact FS.read_write_self _ _ _

/- ### Witnesses -/

/-- An empty filesystem (the storage file is missing). -/
def fsEmpty : FS := ⟨[]⟩

/-- A filesystem whose storage file holds unparseable text. -/
def fsBad : FS := ⟨[(storagePath "A", "nope")]⟩

/-- Concrete content with no target key. -/
def cNoT : String := "\x7b\"x\": 2\x7d"

/-- A filesystem whose storage file holds `cNoT`. -/
def fsNoT : FS := ⟨[(storagePath "A", cNoT)]⟩

/-- An instant one microsecond into a second. -/
def t1Ex : PyDateTime := ⟨2026, 10, 12, 9, 5, 3, 1⟩

/-- A later instant inside the same wall-clock second. -/
def t2Ex : PyDateTime := ⟨2026, 10, 12, 9, 5, 3, 999999⟩

/-- Witness for C1 at a concrete two-key document. -/
theorem claim_c1_witness :
    ((reset_machine_id fsEx "A" uEx uEx uEx uEx tEx false false).fs.read
        (storagePath "A") =
      some (if updatedOf (generate_machine_ids uEx uEx uEx uEx) kvsEx = [] then cEx
            else json_dumps
              (.obj (updFun (generate_machine_ids uEx uEx uEx uEx) kvsEx))))
    ∧ (updFun (generate_machine_ids uEx uEx uEx uEx) kvsEx).map Prod.fst =
        kvsEx.map Prod.fst
    ∧ (∀ k, k ∉ targetKeys →
        alistGet (updFun (generate_machine_ids uEx uEx uEx uEx) kvsEx) k =
          alistGet kvsEx k)
    ∧ (∀ k v, k ∈ kvsEx.map Prod.fst →
        alistGet (generate_machine_ids uEx uEx uEx uEx) k = some v →
        alistGet (updFun (generate_machine_ids uEx uEx uEx uEx) kvsEx) k =
          some (JValue.str v)) :=
  claim_c1_update_frame fsEx "A" uEx uEx uEx uEx tEx false cEx kvsEx rfl rfl

/-- Witness for C2 at a concrete no-target-key document. -/
theorem claim_c2_witness :
    (reset_machine_id fsNoT "A" uEx uEx uEx uEx tEx false false).fs.read
        (storagePath "A") = some cNoT
    ∧ Msg.noTargetKeys ∈
        (reset_machine_id fsNoT "A" uEx uEx uEx uEx tEx false false).printed
    ∧ (reset_machine_id fsNoT "A" uEx uEx uEx uEx tEx false false).term =
        Term.ret :=
  claim_c2_no_target_keys fsNoT "A" uEx uEx uEx uEx tEx false false cNoT
    [("x", .num 2)] rfl rfl (by decide)

/-- Witness for C5 at a missing file. -/
theorem claim_c5_witness :
    reset_machine_id fsEmpty "A" uEx uEx uEx uEx tEx false false =
      ⟨fsEmpty, [Msg.header, Msg.fileNotFound (storagePath "A")], Term.ret⟩ :=
  claim_c5_file_not_found fsEmpty "A" uEx uEx uEx uEx tEx false false rfl

/-- Witness for C6 at a concrete unparseable file. -/
theorem claim_c6_witness :
    (reset_machine_id fsBad "A" uEx uEx uEx uEx tEx false false).fs.read
        (storagePath "A") = some "nope"
    ∧ Msg.parseError ∈
        (reset_machine_id fsBad "A" uEx uEx uEx uEx tEx false false).printed
    ∧ (reset_machine_id fsBad "A" uEx uEx uEx uEx tEx false false).term =
        Term.ret
    ∧ (false = false →
        (reset_machine_id fsBad "A" uEx uEx uEx uEx tEx false false).fs =
            fsBad.write (backupPath (storagePath "A") tEx) "nope"
        ∧ (reset_machine_id fsBad "A" uEx uEx uEx uEx tEx false false).fs.read
            (backupPath (storagePath "A") tEx) = some "nope")
    ∧ (false = true →
        (reset_machine_id fsBad "A" uEx uEx uEx uEx tEx false false).fs =
          fsBad) :=
  claim_c6_parse_error fsBad "A" uEx uEx uEx uEx tEx false false "nope" rfl rfl

/-- Witness for C7 at a concrete parseable file. -/
theorem claim_c7_witness :
    (reset_machine_id fsEx "A" uEx uEx uEx uEx tEx true false).term =
      (reset_machine_id fsEx "A" uEx uEx uEx uEx tEx false false).term
    ∧ (reset_machine_id fsEx "A" uEx uEx uEx uEx tEx true false).fs.read
        (storagePath "A") =
      (reset_machine_id fsEx "A" uEx uEx uEx uEx tEx false false).fs.read
        (storagePath "A")
    ∧ (∀ p, p ≠ backupPath (storagePath "A") tEx →
        (reset_machine_id fsEx "A" uEx uEx uEx uEx tEx true false).fs.read p =
        (reset_machine_id fsEx "A" uEx uEx uEx uEx tEx false false).fs.read p)
    ∧ (reset_machine_id fsEx "A" uEx uEx uEx uEx tEx true false).printed.filter
        (fun m => !(isBackupMsg m)) =
      (reset_machine_id fsEx "A" uEx uEx uEx uEx tEx false false).printed.filter
        (fun m => !(isBackupMsg m)) :=
  claim_c7_backup_nonfatal fsEx "A" uEx uEx uEx uEx tEx false cEx
    (.obj kvsEx) rfl rfl

/-- Witness for the amended C8 at a concrete object-valued file. -/
theorem claim_c8_witness :
    (reset_machine_id fsEx "A" uEx uEx uEx uEx tEx false false).term =
      Term.ret :=
  claim_c8_amended_no_exn fsEx "A" uEx uEx uEx uEx tEx false false rfl

/-- Witness for the amended C9 at a concrete successful run. -/
theorem claim_c9_witness :
    (reset_machine_id fsEx "A" uEx uEx uEx uEx tEx false false).printed.head? =
        some Msg.header
    ∧ Msg.updated (updatedOf (generate_machine_ids uEx uEx uEx uEx) kvsEx) ∈
        (reset_machine_id fsEx "A" uEx uEx uEx uEx tEx false false).printed
    ∧ (reset_machine_id fsEx "A" uEx uEx uEx uEx tEx false false).term =
        Term.ret :=
  claim_c9_amended_prints fsEx "A" uEx uEx uEx uEx tEx false cEx kvsEx rfl rfl
    (by decide)

/-- Witness for C10 at two concrete instants inside one second. -/
theorem claim_c10_witness :
    backupPath (storagePath "A") t1Ex = backupPath (storagePath "A") t2Ex
    ∧ ((backup_file ((backup_file fsEx (storagePath "A") t1Ex false).1)
          (storagePath "A") t2Ex false).1.files.map Prod.fst =
        (backup_file fsEx (storagePath "A") t1Ex false).1.files.map Prod.fst)
    ∧ (backup_file ((backup_file fsEx (storagePath "A") t1Ex false).1)
          (storagePath "A") t2Ex false).1.read
        (backupPath (storagePath "A") t1Ex) = some cEx :=
  claim_c10_backup_overwrite fsEx (storagePath "A") cEx t1Ex t2Ex rfl rfl rfl
    rfl rfl rfl rfl
